import Mathlib

/-!
# Verification development for the `video-ai` pipeline

Shallow embedding of the media acquisition and compilation pipeline:

* `src/lib/utils.ts` — `downloadFile` (transport with retry loop);
* `src/lib/pexels-provider.ts` — `PexelsVideoProvider`
  (`getBestQualityVideoUrl`, `downloadVideo`, `downloadVideoWithRetry`,
  `searchAndDownloadVideos`);
* `src/lib/ai.ts` — `VideoAI` (`withCache`, `scrapeVideos` merge/dedup/sort,
  `compileVideo`);
* `src/lib/video-effects.ts` — `VideoEffects.addEffectBetweenClips`.

External effects (HTTP, the filesystem, ffmpeg/ffprobe subprocesses, clocks
and randomness) are modelled by explicit environments of pure functions, and
each stage additionally records the trace of effectful events it performs,
so that cleanup and command-issuing behaviour can be stated and proved.
JavaScript floating-point durations are modelled as exact rationals
(`JsNum`);
millisecond clock readings as integers (`Int`).
-/

deriving instance DecidableEq for Except

namespace VideoAI

/-! ## Pexels data model (`src/lib/pexels-provider.ts`, interfaces) -/

/-- One entry of `PexelsVideo.video_files`: a downloadable (or HLS) source
link with quality tier and container type.  `width`/`height` are nullable in
the API. -/
structure VideoFile where
  id : Nat
  quality : String
  file_type : String
  width : Option Int
  height : Option Int
  link : String
  deriving DecidableEq, Repr

/-- The `user` record nested in a Pexels search result. -/
structure PexelsUser where
  id : Nat
  name : String
  url : String
  deriving DecidableEq, Repr

/-- A Pexels search result (`PexelsVideo` interface); `video_pictures` is
never read by the modelled code and is omitted. -/
structure PexelsVideo where
  id : Nat
  width : Int
  height : Int
  url : String
  image : String
  duration : Int
  user : PexelsUser
  video_files : List VideoFile
  deriving DecidableEq, Repr

/-- A successfully downloaded candidate (`DownloadedVideo` interface). -/
structure DownloadedVideo where
  id : Nat
  title : String
  localPath : String
  duration : Int
  width : Int
  height : Int
  thumbnailUrl : String
  deriving DecidableEq, Repr

/-! ## Link selection (`getBestQualityVideoUrl`, pexels-provider.ts:134-155) -/

/-- `qualityOrder[...] || 0`: hd ↦ 3, sd ↦ 2, preview ↦ 1, anything else 0. -/
def qualityOrder (q : String) : Int :=
  if q = "hd" then 3 else if q = "sd" then 2 else if q = "preview" then 1 else 0

/-- `(f.width || 0) * (f.height || 0)` — pixel area with nulls as zero. -/
def filePixels (f : VideoFile) : Int :=
  f.width.getD 0 * f.height.getD 0

/-- The numeric comparator passed to `.sort` in `getBestQualityVideoUrl`:
negative when `a` ranks before `b`. -/
def fileCompare (a b : VideoFile) : Int :=
  if qualityOrder a.quality ≠ qualityOrder b.quality then
    qualityOrder b.quality - qualityOrder a.quality
  else
    filePixels b - filePixels a

/-- The filter in `getBestQualityVideoUrl`: only progressive mp4 files
qualify, HLS streams are dropped. -/
def qualifiesFile (f : VideoFile) : Bool :=
  f.file_type = "video/mp4" && f.quality ≠ "hls"

/-- `fileCompare a b ≤ 0`: the "ranks no later than" relation induced by the
comparator.  JS `Array.prototype.sort` is a stable sort with respect to its
comparator, and for a total transitive relation the stable sort is uniquely
determined, so every sort in this development is modelled by the stable
`List.insertionSort`. -/
def fileLe (a b : VideoFile) : Prop :=
  fileCompare a b ≤ 0

instance : DecidableRel fileLe := fun a b => Int.decLe _ _

/-- `PexelsVideoProvider.getBestQualityVideoUrl`: filter out HLS, sort by
quality tier then pixel area, return the first link (or null). -/
def getBestQualityVideoUrl (v : PexelsVideo) : Option String :=
  let videoFiles := (v.video_files.filter qualifiesFile).insertionSort fileLe
  videoFiles.head?.map (·.link)

/-! ## Candidate scoring

Two distinct call sites score candidates by `width*height + duration*weight`:
the provider (`searchAndDownloadVideos`, weight 100) and the pipeline merge
(`scrapeVideos`, weight 1000). -/

/-- Score used at pexels-provider.ts:239-240 (`duration * 100`). -/
def providerScore (v : PexelsVideo) : Int :=
  v.width * v.height + v.duration * 100

/-- Score used at ai.ts:637-638 (`duration * 1000`). -/
def pipelineScore (v : DownloadedVideo) : Int :=
  v.width * v.height + v.duration * 1000

/-- Sort relation for the provider's `.sort((a,b) => bScore - aScore)`:
descending by `providerScore`. -/
def providerLe (a b : PexelsVideo) : Prop :=
  providerScore b ≤ providerScore a

instance : DecidableRel providerLe := fun a b => Int.decLe _ _

instance : IsTotal PexelsVideo providerLe :=
  ⟨fun a b => le_total (providerScore b) (providerScore a)⟩

instance : IsTrans PexelsVideo providerLe :=
  ⟨fun _ _ _ hab hbc => le_trans hbc hab⟩

/-- Sort relation for the pipeline's `.sort((a,b) => bScore - aScore)`:
descending by `pipelineScore`. -/
def pipelineLe (a b : DownloadedVideo) : Prop :=
  pipelineScore b ≤ pipelineScore a

instance : DecidableRel pipelineLe := fun a b => Int.decLe _ _

instance : IsTotal DownloadedVideo pipelineLe :=
  ⟨fun a b => le_total (pipelineScore b) (pipelineScore a)⟩

instance : IsTrans DownloadedVideo pipelineLe :=
  ⟨fun _ _ _ hab hbc => le_trans hbc hab⟩

/-! ## Download environment and `downloadVideo` (pexels-provider.ts:160-205)

`downloadFile` and `fs.promises.stat` are effectful; they are modelled by an
environment of pure functions returning `Except` (a `.error` models a
rejected promise / thrown error). -/

/-- Effect environment for the provider: the outcome of `downloadFile(url,
localPath, …)` and of `fs.promises.stat(localPath).size`, plus the
constructor-supplied `tmpDir` and the `Date.now()` reading used to build the
local filename. -/
structure DLEnv where
  download : String → String → Except String Unit
  statSize : String → Except String Nat
  tmpDir : String
  now : Nat

/-- `pexels_${video.id}_${Date.now()}.mp4` joined onto `tmpDir`. -/
def pexelsLocalPath (tmpDir : String) (id : Nat) (now : Nat) : String :=
  tmpDir ++ "/pexels_" ++ toString id ++ "_" ++ toString now ++ ".mp4"

/-- The `DownloadedVideo` record built at pexels-provider.ts:192-200. -/
def downloadedOf (v : PexelsVideo) (localPath : String) : DownloadedVideo :=
  { id := v.id
    title := "Video by " ++ v.user.name
    localPath := localPath
    duration := v.duration
    width := v.width
    height := v.height
    thumbnailUrl := v.image }

/-- The `try` block of `downloadVideo`: download the file, `stat` it, and
reject when the file is empty. -/
def downloadVideoBody (env : DLEnv) (v : PexelsVideo) (url : String) :
    Except String DownloadedVideo := do
  let localPath := pexelsLocalPath env.tmpDir v.id env.now
  let _ ← env.download url localPath
  let size ← env.statSize localPath
  if size = 0 then
    Except.error "Downloaded file is empty"
  else
    Except.ok (downloadedOf v localPath)

/-- `PexelsVideoProvider.downloadVideo`: returns `null` when no suitable
source link exists, and catches every error of the body, turning it into
`null` as well.  The outer `Except` layer records whether the function as a
whole rejects. -/
def downloadVideo (env : DLEnv) (v : PexelsVideo) :
    Except String (Option DownloadedVideo) :=
  match getBestQualityVideoUrl v with
  | none => Except.ok none
  | some url =>
    match downloadVideoBody env v url with
    | Except.ok d => Except.ok (some d)
    | Except.error _ => Except.ok none

/-- `retryAttempts` field of `PexelsVideoProvider`. -/
def retryAttempts : Nat := 3

/-- `maxConcurrentDownloads` field of `PexelsVideoProvider`. -/
def maxConcurrentDownloads : Nat := 5

/-- One run of the `downloadVideoWithRetry` loop body, starting at attempt
number `attempt` with `fuel` loop iterations remaining.  Returns the result,
the number of `downloadVideo` invocations performed, and the list of backoff
waits (in ms) inserted between attempts.  The `catch` branch only runs when
`downloadVideo` rejects. -/
def retryGo (env : DLEnv) (v : PexelsVideo) :
    Nat → Nat → Option DownloadedVideo × Nat × List Nat
  | _, 0 => (none, 0, [])
  | attempt, fuel + 1 =>
    match downloadVideo env v with
    | Except.ok r => (r, 1, [])
    | Except.error _ =>
      if attempt = retryAttempts then (none, 1, [])
      else
        let rest := retryGo env v (attempt + 1) fuel
        (rest.1, rest.2.1 + 1, 1000 * attempt :: rest.2.2)

/-- `PexelsVideoProvider.downloadVideoWithRetry` (pexels-provider.ts:281-298):
`for (attempt = 1; attempt <= retryAttempts; attempt++)`. -/
def downloadVideoWithRetry (env : DLEnv) (v : PexelsVideo) :
    Option DownloadedVideo × Nat × List Nat :=
  retryGo env v 1 retryAttempts

/-! ## Batch selection/download (`searchAndDownloadVideos`,
pexels-provider.ts:210-276) -/

/-- Partition a list into consecutive batches of `size` elements
(`qualityVideos.slice(i, i + maxConcurrentDownloads)`); the fuel argument
(instantiated with the list's length, an upper bound on the number of
batches) makes the recursion structural, so that it reduces in the
kernel. -/
def toBatchesGo (size : Nat) :
    Nat → List PexelsVideo → List (List PexelsVideo)
  | _, [] => []
  | 0, _ :: _ => []
  | fuel + 1, x :: xs =>
    (x :: xs.take (size - 1)) :: toBatchesGo size fuel (xs.drop (size - 1))

/-- `for (i = 0; i < list.length; i += size) batches.push(list.slice(i, i + size))`. -/
def toBatches (size : Nat) (l : List PexelsVideo) : List (List PexelsVideo) :=
  toBatchesGo size l.length l

/-- The filter+sort+slice selection stage of `searchAndDownloadVideos`
(lines 231-243): keep durations in [3, 60], sort descending by
`providerScore`, take the first `maxVideos`. -/
def selectQualityVideos (videos : List PexelsVideo) (maxVideos : Nat) :
    List PexelsVideo :=
  (((videos.filter fun v => 3 ≤ v.duration && v.duration ≤ 60).insertionSort
    providerLe).take maxVideos)

/-- `searchAndDownloadVideos` after the search: select quality videos, then
download batch by batch, keeping (in order) every fulfilled, non-null
result. -/
def searchAndDownloadVideos (env : DLEnv) (searchVideos : List PexelsVideo)
    (maxVideos : Nat) : List DownloadedVideo :=
  let qualityVideos := selectQualityVideos searchVideos maxVideos
  ((toBatches maxConcurrentDownloads qualityVideos).map
    (fun batch => batch.filterMap fun v => (downloadVideoWithRetry env v).1)).flatten

/-! ## Pipeline merge/dedup/sort (`scrapeVideos`, ai.ts:610-642) -/

/-- The dedup step at ai.ts:630-633:
`allVideos.filter((video, index, arr) => arr.findIndex(v => v.id === video.id) === index)`
— first occurrence of each id wins. -/
def dedupById (l : List DownloadedVideo) : List DownloadedVideo :=
  ((l.enum.filter fun iv => l.findIdx (fun w => w.id = iv.2.id) = iv.1).map
    (·.2))

/-- The merge/dedup/sort/slice stage of `scrapeVideos`: each element of
`results` is the outcome of one settled search strategy (`none` models a
rejected promise); fulfilled results are concatenated in order, deduplicated
by id, sorted descending by `pipelineScore` and cut to `targetCount`. -/
def scrapeVideosSelect (results : List (Option (List DownloadedVideo)))
    (targetCount : Nat) : List DownloadedVideo :=
  let allVideos := (results.filterMap id).flatten
  let uniqueVideos := dedupById allVideos
  ((uniqueVideos.insertionSort pipelineLe).take targetCount)

/-! ## Result cache (`VideoAI.withCache`, ai.ts:162-177)

`this.cache` is a JS `Map`; it is modelled as an association list with
unique keys maintained by `cacheSet`.  `Date.now()` readings are passed in
explicitly: one for the staleness check (line 168) and one for the store
(line 174), which in the source may be later because `operation()` takes
time. -/

/-- A cache entry `{ data, timestamp }`. -/
structure CacheEntry (α : Type) where
  data : α
  timestamp : Int
  deriving DecidableEq, Repr

/-- The cache map. -/
abbrev CacheMap (α : Type) : Type := List (String × CacheEntry α)

/-- `this.cache.get(key)`. -/
def cacheGet {α : Type} (cache : CacheMap α) (key : String) :
    Option (CacheEntry α) :=
  (List.find? (fun kv => kv.1 = key) cache).map (·.2)

/-- `this.cache.set(key, e)`: replace the entry when the key is present,
append otherwise. -/
def cacheSet {α : Type} (cache : CacheMap α) (key : String)
    (e : CacheEntry α) : CacheMap α :=
  if List.any cache (fun kv => kv.1 = key) then
    List.map (fun kv => if kv.1 = key then (key, e) else kv) cache
  else
    cache ++ [(key, e)]

/-- `VideoAI.withCache`: return the cached data when a fresh entry exists,
otherwise run `operation` (modelled by its result value), store it with the
current timestamp, and return it.  The final `Bool` records whether
`operation` was invoked. -/
def withCache {α : Type} (cache : CacheMap α) (key : String) (nowCheck : Int)
    (operation : α) (nowStore : Int) (ttl : Int) :
    α × CacheMap α × Bool :=
  match cacheGet cache key with
  | some cached =>
    if nowCheck - cached.timestamp < ttl then
      (cached.data, cache, false)
    else
      (operation, cacheSet cache key ⟨operation, nowStore⟩, true)
  | none => (operation, cacheSet cache key ⟨operation, nowStore⟩, true)

/-! ## Transport (`downloadFile`, utils.ts:12-94)

Each loop iteration either fails in the request phase (`axios` throws before
`createWriteStream` runs — caught by the retry loop), fails while streaming
the response (the returned inner promise rejects after deleting the partial
file — this rejection is *returned*, not awaited, so it bypasses the
`catch`), or finishes successfully. -/

/-- The outcome of one `downloadFile` attempt, supplied by the network
environment. -/
inductive AttemptOutcome where
  | requestError
  | streamError
  | finished
  deriving DecidableEq, Repr

/-- How a `downloadFile` call terminates. -/
inductive DFOutcome where
  /-- resolves with `outputPath` -/
  | success
  /-- `Error("Download failed after ${maxRetries} attempts: …")` thrown from
  the `catch` on the last attempt -/
  | retriesExhausted (n : Nat)
  /-- the inner promise's rejection (writer/stream error) surfacing directly -/
  | streamRejection
  /-- `Error("Download failed: Maximum retries exceeded")` after the loop -/
  | maxExceeded
  deriving DecidableEq, Repr

/-- Observable result of a `downloadFile` call: how it ended, how many
attempts ran, which backoff waits (ms) were inserted, and whether the
destination file exists afterwards. -/
structure DFRun where
  outcome : DFOutcome
  attempts : Nat
  waits : List Nat
  fileOnDisk : Bool
  deriving DecidableEq, Repr

/-- The `for (attempt = 1; attempt <= maxRetries; attempt++)` loop of
`downloadFile`, driven by the per-attempt outcomes `env`. -/
def dfGo (env : Nat → AttemptOutcome) (maxRetries : Nat) :
    Nat → Nat → DFRun
  | _, 0 => ⟨DFOutcome.maxExceeded, 0, [], false⟩
  | attempt, fuel + 1 =>
    match env attempt with
    | AttemptOutcome.finished => ⟨DFOutcome.success, 1, [], true⟩
    | AttemptOutcome.streamError => ⟨DFOutcome.streamRejection, 1, [], false⟩
    | AttemptOutcome.requestError =>
      if attempt = maxRetries then
        ⟨DFOutcome.retriesExhausted maxRetries, 1, [], false⟩
      else
        let rest := dfGo env maxRetries (attempt + 1) fuel
        ⟨rest.outcome, rest.attempts + 1, 1000 * attempt :: rest.waits,
          rest.fileOnDisk⟩

/-- `downloadFile(url, outputPath, { maxRetries })`, keeping only the
observable behaviours the spec talks about. -/
def downloadFile (env : Nat → AttemptOutcome) (maxRetries : Nat) : DFRun :=
  dfGo env maxRetries 1 maxRetries

/-! ## Duration numbers

JavaScript's floating-point durations are modelled exactly as rationals.
The library `Rat` is unsuitable because its arithmetic is `@[irreducible]`
and so cannot be evaluated by the kernel on concrete runs; `JsNum` is a
plain numerator/denominator pair with componentwise arithmetic.  No claim
relies on algebraic identities of durations — only on equalities between
results of identical computations — so normalization is unnecessary. -/

/-- An exact rational duration value (numerator/denominator). -/
structure JsNum where
  num : Int
  den : Int
  deriving DecidableEq, Repr

instance (n : Nat) : OfNat JsNum n := ⟨⟨n, 1⟩⟩

instance : NatCast JsNum := ⟨fun n => ⟨n, 1⟩⟩

/-- Decimal literals such as `0.5`. -/
instance : OfScientific JsNum :=
  ⟨fun m s e =>
    if s then ⟨(m : Int), (10 : Int) ^ e⟩ else ⟨(m : Int) * (10 : Int) ^ e, 1⟩⟩

instance : Div JsNum := ⟨fun a b => ⟨a.num * b.den, a.den * b.num⟩⟩

instance : Sub JsNum := ⟨fun a b => ⟨a.num * b.den - b.num * a.den,
  a.den * b.den⟩⟩

/-! ## Effect engine (`VideoEffects`, video-effects.ts)

External-tool invocations are modelled by a structured command type `Cmd`
(one constructor per `ffmpeg`/`ffprobe` command template in the source, with
the interpolated arguments as fields) and a trace of filesystem/subprocess
events `Ev`.  Paths are POSIX strings; `path.dirname`/`path.basename` are
modelled by splitting on `/`. -/

/-- Split a character list on `/` (the components of a POSIX path).
`String.splitOn` itself is not used because its recursion does not reduce
inside the kernel. -/
def splitSlash : List Char → List (List Char)
  | [] => [[]]
  | c :: rest =>
    if c = '/' then [] :: splitSlash rest
    else
      match splitSlash rest with
      | [] => [[c]]
      | comp :: comps => (c :: comp) :: comps

/-- `path.basename` (POSIX). -/
def basename (p : String) : String :=
  String.mk ((splitSlash p.data).getLastD [])

/-- `path.dirname` (POSIX). -/
def dirname (p : String) : String :=
  String.intercalate "/" (((splitSlash p.data).dropLast).map String.mk)

/-- The transition kinds of the `TransitionEffect` union type. -/
inductive EffectName where
  | fadein | fadeout | swipeup | swipedown | zoomin | zoomout
  deriving DecidableEq, Repr

/-- The TS string value of an effect name (used in error messages). -/
def effectNameStr : EffectName → String
  | EffectName.fadein => "fadein"
  | EffectName.fadeout => "fadeout"
  | EffectName.swipeup => "swipeup"
  | EffectName.swipedown => "swipedown"
  | EffectName.zoomin => "zoomin"
  | EffectName.zoomout => "zoomout"

/-- `TransitionEffect` value: a kind and a duration in seconds. -/
structure TransitionEffect where
  name : EffectName
  duration : JsNum
  deriving DecidableEq, Repr

/-- The filter strings produced by `generateTransitionFilter`, one
constructor per `switch` case, carrying the interpolated numbers.  (`st` of
the fade-out case is `endTime - duration`, which the source computes from
`endTime = duration`.) -/
inductive TransFilter where
  /-- `fade=t=in:st=0:d={d}` -/
  | fadeIn (d : JsNum)
  /-- `fade=t=out:st={st}:d={d}` -/
  | fadeOut (st d : JsNum)
  /-- `scale=iw:ih*(1-(t/{d})):flags=lanczos,fade=t=in:st=0:d={d}` -/
  | swipeUp (d : JsNum)
  /-- `scale=iw:ih*(t/{d}):flags=lanczos,fade=t=in:st=0:d={d}` -/
  | swipeDown (d : JsNum)
  /-- `zoompan=z='min(1,1+(t/{d}))':d=1:fps=30:enable='between(t,0,{d})'` -/
  | zoomIn (d : JsNum)
  /-- `zoompan=z='max(1,2-(t/{d}))':d=1:fps=30:enable='between(t,0,{d})'` -/
  | zoomOut (d : JsNum)
  deriving DecidableEq, Repr

/-- `VideoEffects.generateTransitionFilter(effect, duration)`: builds the
filter from the *clip* duration argument (`endTime = duration`). -/
def generateTransitionFilter (effect : TransitionEffect) (duration : JsNum) :
    TransFilter :=
  let endTime := duration
  match effect.name with
  | EffectName.fadein => TransFilter.fadeIn duration
  | EffectName.fadeout => TransFilter.fadeOut (endTime - duration) duration
  | EffectName.swipeup => TransFilter.swipeUp duration
  | EffectName.swipedown => TransFilter.swipeDown duration
  | EffectName.zoomin => TransFilter.zoomIn duration
  | EffectName.zoomout => TransFilter.zoomOut duration

/-- External-tool command templates issued by the pipeline, with their
interpolated arguments. -/
inductive Cmd where
  /-- ai.ts:786 — `ffmpeg -i {input} -t {t} -vf "{filters}" -c:v libx264
  -preset {preset} -crf 18 -c:a aac -b:a 192k {out}` -/
  | renderSegment (input : String) (t : JsNum) (filters : String)
      (preset : String) (out : String)
  /-- video-effects.ts:54 — `ffmpeg -i {input} -vf "{filter}" -c:a aac
  -b:a 192k {out}` -/
  | applyEffectCmd (input : String) (filter : TransFilter) (out : String)
  /-- video-effects.ts:94 — `ffmpeg -i {input} -c copy {out}` -/
  | copyClip (input : String) (out : String)
  /-- video-effects.ts:107 — `ffmpeg -f concat -safe 0 -i {listFile} -c copy
  {out}` -/
  | concatClips (listFile : String) (out : String)
  /-- ai.ts:821-837 — the final mux command (`-map 0:v:0 -map 1:a:0
  -shortest -movflags +faststart -pix_fmt yuv420p`). -/
  | finalMux (videoInput : String) (audioInput : String) (preset : String)
      (bitrate : String) (out : String)
  deriving DecidableEq, Repr

/-- Effectful events performed by the effect/compilation engines.  An
`exec` event records whether the command succeeded, so that "this run
produced file `f`" is expressible from the trace. -/
inductive Ev where
  /-- `execAsync` of an ffmpeg command (`ok` = exit status zero) -/
  | exec (c : Cmd) (ok : Bool)
  /-- `ffprobe … format=duration` of a file (`getDuration` /
  `getAudioDuration`) -/
  | probeDur (p : String)
  /-- `fs.promises.stat` of a file -/
  | statFile (p : String)
  /-- `fs.promises.writeFile` of the concat list (content as lines) -/
  | writeFile (p : String) (lines : List String)
  /-- `fs.promises.unlink` of a file -/
  | unlink (p : String)
  deriving DecidableEq, Repr

/-- Environment for external tools: the outcome of each command execution,
of each duration probe, and of each `stat`. -/
structure ToolEnv where
  exec : Cmd → Except String Unit
  probeDuration : String → Except String JsNum
  statSize : String → Except String Nat

/-- A `VideoClip` argument (`{ path, duration? }`). -/
structure VideoClip where
  path : String
  duration : Option JsNum
  deriving DecidableEq, Repr

/-- Step 1 of `addEffectBetweenClips`:
`clip.duration || await this.getDuration(clip.path)` for every clip
(a provided duration of `0` is falsy and triggers a probe). -/
def resolveClipDurations (env : ToolEnv) :
    List VideoClip → Except String (List (String × JsNum)) × List Ev
  | [] => (Except.ok [], [])
  | c :: cs =>
    match c.duration with
    | some d =>
      -- `clip.duration || …`: a numerically zero duration is falsy
      if d.num = 0 then
        match env.probeDuration c.path with
        | Except.error e => (Except.error e, [Ev.probeDur c.path])
        | Except.ok d' =>
          let rest := resolveClipDurations env cs
          (rest.1.map ((c.path, d') :: ·), Ev.probeDur c.path :: rest.2)
      else
        let rest := resolveClipDurations env cs
        (rest.1.map ((c.path, d) :: ·), rest.2)
    | none =>
      match env.probeDuration c.path with
      | Except.error e => (Except.error e, [Ev.probeDur c.path])
      | Except.ok d' =>
        let rest := resolveClipDurations env cs
        (rest.1.map ((c.path, d') :: ·), Ev.probeDur c.path :: rest.2)

/-- `temp_${i}_${path.basename(outputPath)}` inside
`path.dirname(outputPath)`. -/
def tempClipPath (outputPath : String) (i : Nat) : String :=
  dirname outputPath ++ "/temp_" ++ toString i ++ "_" ++ basename outputPath

/-- The error wrapper of `applyEffect`'s `catch`. -/
def applyEffectError (effect : TransitionEffect) (e : String) : String :=
  "Failed to apply effect " ++ effectNameStr effect.name ++ ": " ++ e

/-- Step 2 of `addEffectBetweenClips`: process clip `i` of `total` — apply
the transition to every clip but the last, stream-copy the last — and
collect the processed temp paths. -/
def processClips (env : ToolEnv) (effect : TransitionEffect)
    (outputPath : String) (total : Nat) :
    List (String × JsNum) → Nat → Except String (List String) × List Ev
  | [], _ => (Except.ok [], [])
  | (p, d) :: rest, i =>
    let tempOutput := tempClipPath outputPath i
    let cmd :=
      if i < total - 1 then
        Cmd.applyEffectCmd p (generateTransitionFilter effect d) tempOutput
      else
        Cmd.copyClip p tempOutput
    match env.exec cmd with
    | Except.error e =>
      (Except.error (if i < total - 1 then applyEffectError effect e else e),
        [Ev.exec cmd false])
    | Except.ok _ =>
      let r := processClips env effect outputPath total rest (i + 1)
      (r.1.map (tempOutput :: ·), Ev.exec cmd true :: r.2)

/-- The concat list file path `path.join(tempDir, 'concat_list.txt')`. -/
def concatListPath (outputPath : String) : String :=
  dirname outputPath ++ "/concat_list.txt"

/-- `VideoEffects.addEffectBetweenClips(clips, effect, outputPath)`
(video-effects.ts:63-117): validate, resolve durations, process each clip,
write the concat list, concatenate, then delete the temp files.  Returns the
result together with the full event trace. -/
def addEffectBetweenClips (env : ToolEnv) (clips : List VideoClip)
    (effect : TransitionEffect) (outputPath : String) :
    Except String String × List Ev :=
  if clips.length < 2 then
    (Except.error "At least 2 clips are required to add transitions", [])
  else
    match resolveClipDurations env clips with
    | (Except.error e, evs) => (Except.error e, evs)
    | (Except.ok clipsWithDuration, evs1) =>
      match processClips env effect outputPath clipsWithDuration.length
          clipsWithDuration 0 with
      | (Except.error e, evs2) => (Except.error e, evs1 ++ evs2)
      | (Except.ok processedClips, evs2) =>
        let concatFile := concatListPath outputPath
        let concatLines := processedClips.map (fun c => "file '" ++ c ++ "'")
        let preEvs := evs1 ++ evs2 ++ [Ev.writeFile concatFile concatLines]
        match env.exec (Cmd.concatClips concatFile outputPath) with
        | Except.error e =>
          (Except.error e,
            preEvs ++ [Ev.exec (Cmd.concatClips concatFile outputPath) false])
        | Except.ok _ =>
          (Except.ok outputPath,
            preEvs ++ [Ev.exec (Cmd.concatClips concatFile outputPath) true]
              ++ processedClips.map Ev.unlink ++ [Ev.unlink concatFile])

/-! ## Compilation engine (`VideoAI.compileVideo`, ai.ts:728-864) -/

/-- The candidate transition kinds (ai.ts:796-803). -/
def transitionEffects : List EffectName :=
  [EffectName.fadein, EffectName.fadeout, EffectName.swipeup,
   EffectName.swipedown, EffectName.zoomin, EffectName.zoomout]

/-- Run-specific inputs of `compileVideo` that come from ambient state: the
configured temp directory and aspect ratio, the `Date.now()` reading used by
`generateTempFilePath`, and the `Math.floor(Math.random() * length)` index
that picks the transition effect. -/
structure CompileCfg where
  tmpDir : String
  aspectRatio : String
  now : Nat
  randIdx : Fin transitionEffects.length

/-- `VideoAI.generateTempFilePath`: `path.join(tmpDir,
`${Date.now()}-${filename}`)`. -/
def tempFilePath (cfg : CompileCfg) (filename : String) : String :=
  cfg.tmpDir ++ "/" ++ toString cfg.now ++ "-" ++ filename

/-- The per-segment filter chain (ai.ts:779-784), joined with `,`. -/
def videoFilters (w h : Int) : String :=
  String.intercalate ","
    ["scale=" ++ toString w ++ ":" ++ toString h ++
        ":force_original_aspect_ratio=increase",
      "crop=" ++ toString w ++ ":" ++ toString h,
      "unsharp=5:5:1.0:5:5:0.0",
      "eq=contrast=1.1:brightness=0.05:saturation=1.2"]

/-- `segment_${index}.mp4` temp path of one rendered segment. -/
def segmentPath (cfg : CompileCfg) (index : Nat) : String :=
  tempFilePath cfg ("segment_" ++ toString index ++ ".mp4")

/-- Step 4 of `compileVideo` (ai.ts:774-792): render every clip's segment
(trim to `segmentDuration`, apply the filter chain), collecting the segment
paths; the first failing command rejects the whole step. -/
def renderSegments (env : ToolEnv) (cfg : CompileCfg) (segmentDuration : JsNum)
    (filters : String) (preset : String) :
    List String → Nat → Except String (List String) × List Ev
  | [], _ => (Except.ok [], [])
  | vf :: rest, index =>
    let segPath := segmentPath cfg index
    let cmd := Cmd.renderSegment vf segmentDuration filters preset segPath
    match env.exec cmd with
    | Except.error e => (Except.error e, [Ev.exec cmd false])
    | Except.ok _ =>
      let r := renderSegments env cfg segmentDuration filters preset rest
        (index + 1)
      (r.1.map (segPath :: ·), Ev.exec cmd true :: r.2)

/-- The `catch` wrapper of `compileVideo`:
`Enhanced video compilation failed: ${error}`. -/
def compileError (e : String) : String :=
  "Enhanced video compilation failed: " ++ e

/-- `VideoAI.compileVideo(videoFiles, audioFile, imageFile, script)`
(ai.ts:728-864): validate the clip count, probe the narration, render the
segments with per-clip duration `audioDuration / videoFiles.length`, apply a
transition via the effect engine, mux against the narration, and delete the
segments and the transitioned intermediate.  `imageFile` and `script` are
parameters of the source function that its body never reads. -/
def compileVideo (env : ToolEnv) (cfg : CompileCfg) (videoFiles : List String)
    (audioFile : String) (imageFile : String) (script : String) :
    Except String String × List Ev :=
  if videoFiles.length < 2 then
    (Except.error "At least two video clips are required for compilation.", [])
  else
    let outputPath := tempFilePath cfg "final_video.mp4"
    match env.statSize audioFile with
    | Except.error e =>
      (Except.error (compileError e), [Ev.statFile audioFile])
    | Except.ok _ =>
    match env.probeDuration audioFile with
    | Except.error e =>
      (Except.error (compileError e),
        [Ev.statFile audioFile, Ev.probeDur audioFile])
    | Except.ok audioDuration =>
      let isPortrait := cfg.aspectRatio = "9:16"
      let targetWidth : Int := if isPortrait then 1080 else 1920
      let targetHeight : Int := if isPortrait then 1920 else 1080
      let bitrate := if isPortrait then "2500k" else "4000k"
      let preset := "medium"
      let segmentDuration := audioDuration / (videoFiles.length : JsNum)
      let pre := [Ev.statFile audioFile, Ev.probeDur audioFile]
      match renderSegments env cfg segmentDuration
          (videoFilters targetWidth targetHeight) preset videoFiles 0 with
      | (Except.error e, evs) => (Except.error (compileError e), pre ++ evs)
      | (Except.ok processedSegments, evs) =>
        let randomEffect := transitionEffects.get cfg.randIdx
        let transitionedVideoPath := tempFilePath cfg "transitioned_video.mp4"
        match addEffectBetweenClips env
            (processedSegments.map fun p => ⟨p, none⟩)
            ⟨randomEffect, 0.5⟩ transitionedVideoPath with
        | (Except.error e, evs2) =>
          (Except.error (compileError e), pre ++ evs ++ evs2)
        | (Except.ok _, evs2) =>
          let muxCmd := Cmd.finalMux transitionedVideoPath audioFile preset
            bitrate outputPath
          match env.exec muxCmd with
          | Except.error e =>
            (Except.error (compileError e),
              pre ++ evs ++ evs2 ++ [Ev.exec muxCmd false])
          | Except.ok _ =>
            match env.statSize outputPath with
            | Except.error e =>
              (Except.error (compileError e),
                pre ++ evs ++ evs2 ++ [Ev.exec muxCmd true,
                  Ev.statFile outputPath])
            | Except.ok _ =>
              (Except.ok outputPath,
                pre ++ evs ++ evs2 ++ [Ev.exec muxCmd true,
                  Ev.statFile outputPath]
                  ++ processedSegments.map Ev.unlink
                  ++ [Ev.unlink transitionedVideoPath])

/-! ## Helper lemmas -/

/-- Decode the sort relation of `getBestQualityVideoUrl`: `a` ranks no later
than `b` iff `a` has the strictly higher quality tier, or the same tier and
at least the pixel area. -/
theorem fileLe_iff (a b : VideoFile) :
    fileLe a b ↔
      (qualityOrder b.quality < qualityOrder a.quality ∨
        (qualityOrder a.quality = qualityOrder b.quality ∧
          filePixels b ≤ filePixels a)) := by
  unfold fileLe fileCompare
  split <;> omega

instance : IsTotal VideoFile fileLe :=
  ⟨fun a b => by
    rw [fileLe_iff, fileLe_iff]
    omega⟩

instance : IsTrans VideoFile fileLe :=
  ⟨fun a b c hab hbc => by
    rw [fileLe_iff] at hab hbc ⊢
    omega⟩

/-! ## C7 — link selection -/

/-- C7: for every candidate, `getBestQualityVideoUrl` returns (when
non-null) the link of a source file whose type is `video/mp4` and whose
quality is not `hls`, maximal under the tier ordering hd > sd > preview with
ties broken by larger pixel area; and when no qualifying link exists it
returns null. -/
theorem c7_link_selection (v : PexelsVideo) :
    (∀ url, getBestQualityVideoUrl v = some url →
      ∃ f, f ∈ v.video_files ∧ qualifiesFile f = true ∧ f.link = url ∧
        ∀ g, g ∈ v.video_files → qualifiesFile g = true →
          qualityOrder g.quality < qualityOrder f.quality ∨
            (qualityOrder g.quality = qualityOrder f.quality ∧
              filePixels g ≤ filePixels f)) ∧
    ((∀ f, f ∈ v.video_files → qualifiesFile f = false) →
      getBestQualityVideoUrl v = none) := by
  constructor
  · intro url hurl
    unfold getBestQualityVideoUrl at hurl
    rcases hS : (v.video_files.filter qualifiesFile).insertionSort fileLe with
      _ | ⟨f₀, t⟩
    · rw [hS] at hurl
      simp at hurl
    · rw [hS] at hurl
      have hlink : f₀.link = url := by
        simpa using hurl
      have hf₀mem : f₀ ∈ v.video_files.filter qualifiesFile := by
        have hmem : f₀ ∈ (v.video_files.filter qualifiesFile).insertionSort
            fileLe := by
          rw [hS]
          exact List.mem_cons_self _ _
        exact (List.mem_insertionSort fileLe).mp hmem
      refine ⟨f₀, (List.mem_filter.mp hf₀mem).1, (List.mem_filter.mp hf₀mem).2,
        hlink, ?_⟩
      intro g hg hq
      have hgS : g ∈ (v.video_files.filter qualifiesFile).insertionSort
          fileLe :=
        (List.mem_insertionSort fileLe).mpr (List.mem_filter.mpr ⟨hg, hq⟩)
      rw [hS] at hgS
      rcases List.mem_cons.mp hgS with rfl | hgt
      · right
        exact ⟨rfl, le_refl _⟩
      · have hsorted : List.Sorted fileLe
            ((v.video_files.filter qualifiesFile).insertionSort fileLe) :=
          List.sorted_insertionSort fileLe _
        rw [hS] at hsorted
        have hle := List.rel_of_sorted_cons hsorted g hgt
        rw [fileLe_iff] at hle
        omega
  · intro hnone
    unfold getBestQualityVideoUrl
    have hf : v.video_files.filter qualifiesFile = [] := by
      rw [List.filter_eq_nil_iff]
      intro f hf
      simp [hnone f hf]
    rw [hf]
    rfl

/-- A concrete candidate with qualifying and non-qualifying links: the best
qualifying file is the large hd mp4. -/
def sampleFilesVideo : PexelsVideo :=
  { id := 1, width := 1920, height := 1080, url := "u", image := "img.jpg",
    duration := 10, user := ⟨7, "Ann", "uu"⟩,
    video_files :=
      [⟨10, "hd", "video/mp4", some 960, some 540, "small-hd.mp4"⟩,
       ⟨11, "hls", "video/mp4", some 1920, some 1080, "stream.m3u8"⟩,
       ⟨12, "sd", "video/mp4", some 640, some 360, "sd.mp4"⟩,
       ⟨13, "hd", "video/mp4", some 1920, some 1080, "big-hd.mp4"⟩,
       ⟨14, "hd", "application/x-mpegURL", none, none, "other.m3u8"⟩] }

/-- Witness for C7 at a concrete candidate. -/
theorem c7_link_selection_witness :
    ∃ f, f ∈ sampleFilesVideo.video_files ∧ qualifiesFile f = true ∧
      f.link = "big-hd.mp4" ∧
      ∀ g, g ∈ sampleFilesVideo.video_files → qualifiesFile g = true →
        qualityOrder g.quality < qualityOrder f.quality ∨
          (qualityOrder g.quality = qualityOrder f.quality ∧
            filePixels g ≤ filePixels f) :=
  (c7_link_selection sampleFilesVideo).1 "big-hd.mp4" (by decide)

/-! ## C4 — the two scoring call sites disagree -/

/-- A candidate with small area and long duration. -/
def weightProbeA : PexelsVideo :=
  { id := 100, width := 100, height := 100, url := "a", image := "a.jpg",
    duration := 20, user := ⟨1, "A", "ua"⟩, video_files := [] }

/-- A candidate with larger area and shorter duration. -/
def weightProbeB : PexelsVideo :=
  { id := 101, width := 150, height := 100, url := "b", image := "b.jpg",
    duration := 10, user := ⟨2, "B", "ub"⟩, video_files := [] }

/-- C4: both call sites rank by `width*height + duration*weight`, the
provider with weight 100 and the pipeline with weight 1000, and there is a
candidate pair the two scorings order oppositely. -/
theorem c4_scoring_weights_disagree :
    (∀ v : PexelsVideo,
        providerScore v = v.width * v.height + v.duration * 100) ∧
    (∀ v : DownloadedVideo,
        pipelineScore v = v.width * v.height + v.duration * 1000) ∧
    providerScore weightProbeA < providerScore weightProbeB ∧
    pipelineScore (downloadedOf weightProbeB "b.mp4") <
      pipelineScore (downloadedOf weightProbeA "a.mp4") :=
  ⟨fun _ => rfl, fun _ => rfl, by decide, by decide⟩

/-! ## C10 — `compileVideo` is independent of `imageFile` and `script` -/

/-- C10: two `compileVideo` calls that differ only in the `imageFile` and
`script` arguments produce identical results and identical event traces (in
particular they issue the same external-tool commands and return the same
output path): the body of `compileVideo` never reads either argument. -/
theorem c10_compileVideo_ignores_image_and_script (env : ToolEnv)
    (cfg : CompileCfg) (videoFiles : List String) (audioFile : String)
    (image1 script1 image2 script2 : String) :
    compileVideo env cfg videoFiles audioFile image1 script1 =
      compileVideo env cfg videoFiles audioFile image2 script2 := rfl

/-! ## C3 — cache TTL behaviour -/

/-- Inserting under a key that was absent makes `cacheGet` find exactly the
new entry. -/
theorem cacheGet_set_same {α : Type} (cache : CacheMap α) (key : String)
    (e : CacheEntry α) (h : cacheGet cache key = none) :
    cacheGet (cacheSet cache key e) key = some e := by
  unfold cacheGet at h ⊢
  unfold cacheSet
  have hfind : List.find? (fun kv => kv.1 = key) cache = none := by
    cases hf : List.find? (fun kv => kv.1 = key) cache with
    | none => rfl
    | some kv =>
      rw [hf] at h
      simp at h
  have hany : List.any cache (fun kv => kv.1 = key) = false := by
    rw [List.any_eq_false]
    intro kv hkv
    have := List.find?_eq_none.mp hfind kv hkv
    simpa using this
  rw [hany]
  simp only [Bool.false_eq_true, if_false]
  rw [List.find?_append, hfind]
  simp

/-- C3: starting from a cache without the key, a first `withCache` call
computes and stores its operation's value; a second call whose check time is
within `ttl` of the first call returns the first value without invoking its
operation; a later call whose check time is at least `ttl` past the stored
timestamp invokes its operation again and returns that fresh value. -/
theorem c3_withCache_ttl {α : Type} (cache₀ : CacheMap α) (key : String)
    (op1 op2 op3 : α) (t1 t1' t2 t2' t3 t3' ttl : Int)
    (h₀ : cacheGet cache₀ key = none)
    (hmono : t1 ≤ t1')
    (hin : t2 - t1 < ttl)
    (hexp : ttl ≤ t3 - t1') :
    withCache cache₀ key t1 op1 t1' ttl =
      (op1, cacheSet cache₀ key ⟨op1, t1'⟩, true) ∧
    withCache (cacheSet cache₀ key ⟨op1, t1'⟩) key t2 op2 t2' ttl =
      (op1, cacheSet cache₀ key ⟨op1, t1'⟩, false) ∧
    (withCache (cacheSet cache₀ key ⟨op1, t1'⟩) key t3 op3 t3' ttl).1 = op3 ∧
    (withCache (cacheSet cache₀ key ⟨op1, t1'⟩) key t3 op3 t3' ttl).2.2 =
      true := by
  have hset := cacheGet_set_same cache₀ key ⟨op1, t1'⟩ h₀
  refine ⟨?_, ?_, ?_, ?_⟩
  · unfold withCache
    rw [h₀]
  · unfold withCache
    rw [hset]
    dsimp only
    rw [if_pos (by omega)]
  · unfold withCache
    rw [hset]
    dsimp only
    rw [if_neg (by omega)]
  · unfold withCache
    rw [hset]
    dsimp only
    rw [if_neg (by omega)]

/-- Witness for C3 at concrete times (ttl 300000 ms as in the source's
default). -/
theorem c3_withCache_ttl_witness :
    withCache ([] : CacheMap Nat) "k" 0 1 5 300000 =
      (1, cacheSet [] "k" ⟨1, 5⟩, true) ∧
    withCache (cacheSet ([] : CacheMap Nat) "k" ⟨1, 5⟩) "k" 10 2 12 300000 =
      (1, cacheSet [] "k" ⟨1, 5⟩, false) ∧
    (withCache (cacheSet ([] : CacheMap Nat) "k" ⟨1, 5⟩) "k" 300005 3 300006
      300000).1 = 3 ∧
    (withCache (cacheSet ([] : CacheMap Nat) "k" ⟨1, 5⟩) "k" 300005 3 300006
      300000).2.2 = true :=
  c3_withCache_ttl [] "k" 1 2 3 0 5 10 12 300005 300006 300000 rfl
    (by decide) (by decide) (by decide)

/-! ## C9 — `downloadVideo` never rejects -/

/-- `downloadVideo` always resolves, because every throwing operation of its
body sits inside the `try`/`catch` and the code before the `try` cannot
throw. -/
theorem downloadVideo_isOk (env : DLEnv) (v : PexelsVideo) :
    ∃ r, downloadVideo env v = Except.ok r := by
  rcases hurl : getBestQualityVideoUrl v with _ | url
  · exact ⟨none, by simp [downloadVideo, hurl]⟩
  · rcases hbody : downloadVideoBody env v url with e | d
    · exact ⟨none, by simp [downloadVideo, hurl, hbody]⟩
    · exact ⟨some d, by simp [downloadVideo, hurl, hbody]⟩

/-- C9: `downloadVideo` never rejects — it resolves on every input, and on
each failure path (no suitable source link; a rejected download/stat or an
empty downloaded file, i.e. any rejection of the try-block body) it resolves
with null. -/
theorem c9_downloadVideo_never_rejects (env : DLEnv) (v : PexelsVideo) :
    (∃ r, downloadVideo env v = Except.ok r) ∧
    (getBestQualityVideoUrl v = none →
      downloadVideo env v = Except.ok none) ∧
    (∀ url e, getBestQualityVideoUrl v = some url →
      downloadVideoBody env v url = Except.error e →
      downloadVideo env v = Except.ok none) := by
  refine ⟨downloadVideo_isOk env v, ?_, ?_⟩
  · intro hnone
    simp [downloadVideo, hnone]
  · intro url e hurl herr
    simp [downloadVideo, hurl, herr]

/-- A candidate whose only source links do not qualify (an HLS stream). -/
def noLinkVideo : PexelsVideo :=
  { id := 55, width := 640, height := 360, url := "v", image := "v.jpg",
    duration := 12, user := ⟨3, "C", "uc"⟩,
    video_files := [⟨60, "hls", "video/mp4", none, none, "only.m3u8"⟩] }

/-- An environment in which every download and stat fails. -/
def failingDLEnv : DLEnv :=
  { download := fun _ _ => Except.error "network error"
    statSize := fun _ => Except.error "ENOENT"
    tmpDir := "tmp"
    now := 1700000000000 }

/-- Witness for C9: a candidate without a qualifying link resolves with
null. -/
theorem c9_downloadVideo_never_rejects_witness :
    downloadVideo failingDLEnv noLinkVideo = Except.ok none :=
  (c9_downloadVideo_never_rejects failingDLEnv noLinkVideo).2.1 (by decide)

/-! ## C2 — the retry wrapper -/

/-- A candidate with one qualifying hd mp4 link. -/
def retryProbeVideo : PexelsVideo :=
  { id := 77, width := 1280, height := 720, url := "w", image := "w.jpg",
    duration := 8, user := ⟨4, "D", "ud"⟩,
    video_files := [⟨70, "hd", "video/mp4", some 1280, some 720, "w.mp4"⟩] }

/-- C2 counterexample: on a candidate whose download always fails, the
wrapper gives up after a single `downloadVideo` invocation with no backoff
wait — not after `retryAttempts` (3) attempts — because `downloadVideo`
resolves with null instead of rejecting. -/
theorem c2_counterexample :
    downloadVideoWithRetry failingDLEnv retryProbeVideo = (none, 1, []) ∧
    (1 : Nat) ≠ retryAttempts := by
  exact ⟨by decide, by decide⟩

/-- C2 (amended): `downloadVideoWithRetry` loops up to `retryAttempts` (3)
times and would wait `1000·attempt` ms (linearly increasing) between
attempts, but it retries only when `downloadVideo` rejects; since
`downloadVideo` always resolves — returning null on failure — the wrapper
performs exactly one `downloadVideo` invocation per candidate, inserts no
backoff wait, and returns that single invocation's result. -/
theorem c2_retry_wrapper_single_attempt (env : DLEnv) (v : PexelsVideo) :
    ∃ r, downloadVideo env v = Except.ok r ∧
      downloadVideoWithRetry env v = (r, 1, []) := by
  obtain ⟨r, hr⟩ := downloadVideo_isOk env v
  refine ⟨r, hr, ?_⟩
  unfold downloadVideoWithRetry retryAttempts retryGo
  rw [hr]

/-! ## C5 — transport retry behaviour -/

/-- If a `downloadFile` run does not succeed, the destination file does not
exist afterwards (request-phase failures never create it; streaming
failures delete the partial file). -/
theorem dfGo_fileOnDisk (env : Nat → AttemptOutcome) (maxRetries : Nat) :
    ∀ fuel attempt,
      (dfGo env maxRetries attempt fuel).outcome ≠ DFOutcome.success →
      (dfGo env maxRetries attempt fuel).fileOnDisk = false := by
  intro fuel
  induction fuel with
  | zero => intro attempt _; rfl
  | succ n ih =>
    intro attempt h
    cases henv : env attempt with
    | finished =>
      exfalso
      apply h
      simp [dfGo, henv]
    | streamError => simp [dfGo, henv]
    | requestError =>
      by_cases hm : attempt = maxRetries
      · subst hm
        simp [dfGo, henv]
      · simp only [dfGo, henv, if_neg hm] at h ⊢
        exact ih (attempt + 1) h

/-- When every attempt fails in the request phase, the loop runs `fuel`
attempts (one per remaining iteration) and throws the retries-exhausted
error, with linearly growing waits between attempts. -/
theorem dfGo_allRequestError (env : Nat → AttemptOutcome) (maxRetries : Nat) :
    ∀ fuel attempt, attempt + fuel = maxRetries + 1 → 1 ≤ fuel →
      (∀ k, attempt ≤ k → k ≤ maxRetries → env k =
        AttemptOutcome.requestError) →
      dfGo env maxRetries attempt fuel =
        ⟨DFOutcome.retriesExhausted maxRetries, fuel,
          (List.range' attempt (fuel - 1)).map (1000 * ·), false⟩ := by
  intro fuel
  induction fuel with
  | zero => intro attempt _ h1; omega
  | succ n ih =>
    intro attempt hsum _ hall
    have henv : env attempt = AttemptOutcome.requestError :=
      hall attempt (le_refl _) (by omega)
    rcases Nat.eq_zero_or_pos n with rfl | hn
    · have hm : attempt = maxRetries := by omega
      subst hm
      simp [dfGo, henv]
    · have hm : attempt ≠ maxRetries := by omega
      have hrec := ih (attempt + 1) (by omega) (by omega)
        (fun k hk1 hk2 => hall k (by omega) hk2)
      simp only [dfGo, henv, if_neg hm, hrec]
      have hr : List.range' attempt n =
          attempt :: List.range' (attempt + 1) (n - 1) := by
        have hn1 : n = (n - 1) + 1 := by omega
        conv_lhs => rw [hn1]
        rw [List.range'_succ]
      simp [hr]

/-- When attempt `k` fails while streaming the response (all earlier
attempts failing in the request phase), the run ends with the stream
rejection after exactly `k - attempt + 1` attempts of this loop. -/
theorem dfGo_streamFail (env : Nat → AttemptOutcome) (maxRetries : Nat) :
    ∀ fuel attempt k, attempt ≤ k → k < attempt + fuel → k ≤ maxRetries →
      env k = AttemptOutcome.streamError →
      (∀ j, attempt ≤ j → j < k → env j = AttemptOutcome.requestError) →
      dfGo env maxRetries attempt fuel =
        ⟨DFOutcome.streamRejection, k - attempt + 1,
          (List.range' attempt (k - attempt)).map (1000 * ·), false⟩ := by
  intro fuel
  induction fuel with
  | zero => intro attempt k h1 h2; omega
  | succ n ih =>
    intro attempt k hak hkf hkm hk hbefore
    by_cases heq : attempt = k
    · subst heq
      simp [dfGo, hk]
    · have henv : env attempt = AttemptOutcome.requestError :=
        hbefore attempt (le_refl _) (by omega)
      have hm : attempt ≠ maxRetries := by omega
      have hrec := ih (attempt + 1) k (by omega) (by omega) hkm hk
        (fun j hj1 hj2 => hbefore j (by omega) hj2)
      simp only [dfGo, henv, if_neg hm, hrec]
      have h1 : k - (attempt + 1) + 1 = k - attempt := by omega
      have h2 : List.range' attempt (k - attempt) =
          attempt :: List.range' (attempt + 1) (k - attempt - 1) := by
        have hk1 : k - attempt = (k - attempt - 1) + 1 := by omega
        conv_lhs => rw [hk1]
        rw [List.range'_succ]
      have h3 : k - attempt - 1 = k - (attempt + 1) := by omega
      simp [h1, h2, h3]

/-- C5 counterexample: with `maxRetries = 3`, a download whose first attempt
fails while streaming the response surfaces its error after exactly one
attempt, not after `maxRetries` attempts: the rejection of the returned
inner promise is not routed through the retry loop's `catch`. -/
theorem c5_counterexample :
    (downloadFile (fun _ => AttemptOutcome.streamError) 3).outcome ≠
      DFOutcome.success ∧
    (downloadFile (fun _ => AttemptOutcome.streamError) 3).attempts = 1 ∧
    ¬((downloadFile (fun _ => AttemptOutcome.streamError) 3).attempts = 3) :=
  ⟨by decide, by decide, by decide⟩

/-- C5 (amended): every ultimately failing `downloadFile` run leaves no
destination file on disk.  When every attempt fails in the request phase,
exactly `maxRetries` attempts are made before the error surfaces; but when
attempt `k` fails while streaming the response body (earlier attempts
failing in the request phase), the error surfaces after exactly `k`
attempts, bypassing the remaining retries. -/
theorem c5_downloadFile_failure (env : Nat → AttemptOutcome)
    (maxRetries : Nat) (h1 : 1 ≤ maxRetries) :
    ((downloadFile env maxRetries).outcome ≠ DFOutcome.success →
      (downloadFile env maxRetries).fileOnDisk = false) ∧
    ((∀ k, 1 ≤ k → k ≤ maxRetries → env k = AttemptOutcome.requestError) →
      (downloadFile env maxRetries).outcome =
        DFOutcome.retriesExhausted maxRetries ∧
      (downloadFile env maxRetries).attempts = maxRetries) ∧
    (∀ k, 1 ≤ k → k ≤ maxRetries → env k = AttemptOutcome.streamError →
      (∀ j, 1 ≤ j → j < k → env j = AttemptOutcome.requestError) →
      (downloadFile env maxRetries).outcome = DFOutcome.streamRejection ∧
      (downloadFile env maxRetries).attempts = k) := by
  refine ⟨fun h => dfGo_fileOnDisk env maxRetries maxRetries 1 h, ?_, ?_⟩
  · intro hall
    have h := dfGo_allRequestError env maxRetries maxRetries 1 (by omega) h1
      hall
    unfold downloadFile
    rw [h]
    exact ⟨rfl, rfl⟩
  · intro k hk1 hkm hk hbefore
    have h := dfGo_streamFail env maxRetries maxRetries 1 k hk1 (by omega)
      hkm hk hbefore
    unfold downloadFile
    rw [h]
    refine ⟨rfl, ?_⟩
    show k - 1 + 1 = k
    omega

/-- An environment whose first attempt fails in the request phase and whose
second fails while streaming. -/
def mixedFailEnv : Nat → AttemptOutcome := fun k =>
  if k < 2 then AttemptOutcome.requestError else AttemptOutcome.streamError

/-- Witness for C5 at concrete environments with `maxRetries = 3`. -/
theorem c5_downloadFile_failure_witness :
    ((downloadFile (fun _ => AttemptOutcome.requestError) 3).outcome =
      DFOutcome.retriesExhausted 3 ∧
     (downloadFile (fun _ => AttemptOutcome.requestError) 3).attempts = 3) ∧
    (downloadFile (fun _ => AttemptOutcome.requestError) 3).fileOnDisk =
      false ∧
    ((downloadFile mixedFailEnv 3).outcome = DFOutcome.streamRejection ∧
     (downloadFile mixedFailEnv 3).attempts = 2) := by
  refine ⟨(c5_downloadFile_failure (fun _ => AttemptOutcome.requestError) 3
      (by decide)).2.1 (fun k _ _ => rfl), ?_, ?_⟩
  · exact (c5_downloadFile_failure (fun _ => AttemptOutcome.requestError) 3
      (by decide)).1 (by decide)
  · exact (c5_downloadFile_failure mixedFailEnv 3 (by decide)).2.2 2
      (by decide) (by decide) (by decide)
      (fun j hj1 hj2 => by
        unfold mixedFailEnv
        rw [if_pos (by omega)])

/-! ## C8 — equal division of the narration across segments -/

/-- Whether an event is the execution of a segment-render command. -/
def isRenderExec : Ev → Bool
  | Ev.exec (Cmd.renderSegment _ _ _ _ _) _ => true
  | _ => false

/-- Every event of the duration-resolution step is a probe. -/
theorem resolveClipDurations_probe_events (env : ToolEnv) :
    ∀ clips, ∀ ev ∈ (resolveClipDurations env clips).2, ∃ p,
      ev = Ev.probeDur p := by
  intro clips
  induction clips with
  | nil =>
    intro ev hev
    simp [resolveClipDurations] at hev
  | cons c cs ih =>
    intro ev hev
    rw [resolveClipDurations] at hev
    rcases hc : c.duration with _ | d
    · rw [hc] at hev
      rcases hp : env.probeDuration c.path with e | d'
      · rw [hp] at hev
        simp at hev
        exact ⟨c.path, hev⟩
      · rw [hp] at hev
        simp only [List.mem_cons] at hev
        rcases hev with rfl | hev
        · exact ⟨c.path, rfl⟩
        · exact ih ev hev
    · rw [hc] at hev
      dsimp only at hev
      by_cases hd : d.num = 0
      · rw [if_pos hd] at hev
        rcases hp : env.probeDuration c.path with e | d'
        · rw [hp] at hev
          simp at hev
          exact ⟨c.path, hev⟩
        · rw [hp] at hev
          simp only [List.mem_cons] at hev
          rcases hev with rfl | hev
          · exact ⟨c.path, rfl⟩
          · exact ih ev hev
      · rw [if_neg hd] at hev
        exact ih ev hev

/-- Every event of the clip-processing loop is the execution of an
apply-effect or copy command. -/
theorem processClips_events (env : ToolEnv) (effect : TransitionEffect)
    (outputPath : String) (total : Nat) :
    ∀ cds i, ∀ ev ∈ (processClips env effect outputPath total cds i).2,
      isRenderExec ev = false ∧ ∀ p, ev ≠ Ev.unlink p := by
  intro cds
  induction cds with
  | nil =>
    intro i ev hev
    simp [processClips] at hev
  | cons cd rest ih =>
    intro i ev hev
    rw [processClips] at hev
    rcases hexec : env.exec (if i < total - 1 then
        Cmd.applyEffectCmd cd.1 (generateTransitionFilter effect cd.2)
          (tempClipPath outputPath i)
      else Cmd.copyClip cd.1 (tempClipPath outputPath i)) with e | u
    · rw [hexec] at hev
      simp at hev
      subst hev
      by_cases hi : i < total - 1 <;>
        simp [hi, isRenderExec]
    · rw [hexec] at hev
      simp only [List.mem_cons] at hev
      rcases hev with rfl | hev
      · by_cases hi : i < total - 1 <;>
          simp [hi, isRenderExec]
      · exact ih (i + 1) ev hev

/-- Every event of `addEffectBetweenClips` is a probe, an apply/copy/concat
execution, the concat-list write, or an unlink of a processed temp path or
the concat list; in particular none is a segment-render execution. -/
theorem addEffectBetweenClips_no_render (env : ToolEnv)
    (clips : List VideoClip) (effect : TransitionEffect)
    (outputPath : String) :
    ∀ ev ∈ (addEffectBetweenClips env clips effect outputPath).2,
      isRenderExec ev = false := by
  intro ev hev
  unfold addEffectBetweenClips at hev
  by_cases hlen : clips.length < 2
  · rw [if_pos hlen] at hev
    simp at hev
  · rw [if_neg hlen] at hev
    rcases hres : resolveClipDurations env clips with ⟨res1, evs1⟩
    rw [hres] at hev
    cases res1 with
    | error e =>
      simp only at hev
      obtain ⟨p, rfl⟩ := resolveClipDurations_probe_events env clips ev
        (by rw [hres]; exact hev)
      rfl
    | ok cds =>
      simp only at hev
      rcases hproc : processClips env effect outputPath cds.length cds 0 with
        ⟨res2, evs2⟩
      rw [hproc] at hev
      cases res2 with
      | error e =>
        simp only [List.mem_append] at hev
        rcases hev with hev | hev
        · obtain ⟨p, rfl⟩ := resolveClipDurations_probe_events env clips ev
            (by rw [hres]; exact hev)
          rfl
        · exact ((processClips_events env effect outputPath cds.length cds 0
            ev (by rw [hproc]; exact hev)).1)
      | ok processed =>
        rcases hcc : env.exec (Cmd.concatClips (concatListPath outputPath)
            outputPath) with e | u
        · rw [hcc] at hev
          simp only [List.mem_append, List.mem_singleton] at hev
          rcases hev with ((hev | hev) | rfl) | rfl
          · obtain ⟨p, rfl⟩ := resolveClipDurations_probe_events env clips ev
              (by rw [hres]; exact hev)
            rfl
          · exact ((processClips_events env effect outputPath cds.length cds 0
              ev (by rw [hproc]; exact hev)).1)
          · rfl
          · rfl
        · rw [hcc] at hev
          simp only [List.mem_append, List.mem_singleton, List.mem_map]
            at hev
          rcases hev with ((((hev | hev) | rfl) | rfl) | ⟨p, _, rfl⟩) | rfl
          · obtain ⟨p, rfl⟩ := resolveClipDurations_probe_events env clips ev
              (by rw [hres]; exact hev)
            rfl
          · exact ((processClips_events env effect outputPath cds.length cds 0
              ev (by rw [hproc]; exact hev)).1)
          · rfl
          · rfl
          · rfl
          · rfl

/-- Every event of the segment-render loop executes a render command with
the loop's fixed segment duration, filter chain, and preset. -/
theorem renderSegments_events (env : ToolEnv) (cfg : CompileCfg)
    (segmentDuration : JsNum) (filters preset : String) :
    ∀ l i, ∀ ev ∈ (renderSegments env cfg segmentDuration filters preset
        l i).2,
      ∃ inp out ok, ev = Ev.exec
        (Cmd.renderSegment inp segmentDuration filters preset out) ok := by
  intro l
  induction l with
  | nil =>
    intro i ev hev
    simp [renderSegments] at hev
  | cons vf rest ih =>
    intro i ev hev
    rw [renderSegments] at hev
    dsimp only at hev
    rcases hexec : env.exec (Cmd.renderSegment vf segmentDuration filters
        preset (segmentPath cfg i)) with e | u
    · rw [hexec] at hev
      simp at hev
      exact ⟨vf, segmentPath cfg i, false, hev⟩
    · rw [hexec] at hev
      simp only [List.mem_cons] at hev
      rcases hev with rfl | hev
      · exact ⟨vf, segmentPath cfg i, true, rfl⟩
      · exact ih (i + 1) ev hev

/-- On a non-empty clip list the render trace starts with the first clip's
render command. -/
theorem renderSegments_cons_events (env : ToolEnv) (cfg : CompileCfg)
    (segmentDuration : JsNum) (filters preset : String) (vf : String)
    (rest : List String) (i : Nat) :
    ∃ ok evs',
      (renderSegments env cfg segmentDuration filters preset (vf :: rest)
          i).2 =
        Ev.exec (Cmd.renderSegment vf segmentDuration filters preset
          (segmentPath cfg i)) ok :: evs' := by
  rcases hexec : env.exec (Cmd.renderSegment vf segmentDuration filters
      preset (segmentPath cfg i)) with e | u
  · exact ⟨false, [], by rw [renderSegments]; dsimp only; rw [hexec]⟩
  · exact ⟨true, (renderSegments env cfg segmentDuration filters preset rest
      (i + 1)).2, by rw [renderSegments]; dsimp only; rw [hexec]⟩

/-- Under a successful stat and probe, the `compileVideo` trace is the
stat/probe prefix, then the segment-render trace with per-clip duration
`d / clipCount`, then a tail containing no segment-render execution. -/
theorem compileVideo_trace_split (env : ToolEnv) (cfg : CompileCfg)
    (videoFiles : List String) (audioFile imageFile script : String)
    (d : JsNum) (sz : Nat)
    (h2 : ¬ videoFiles.length < 2)
    (hstat : env.statSize audioFile = Except.ok sz)
    (hprobe : env.probeDuration audioFile = Except.ok d) :
    ∃ tail,
      (compileVideo env cfg videoFiles audioFile imageFile script).2 =
        [Ev.statFile audioFile, Ev.probeDur audioFile] ++
        (renderSegments env cfg (d / (videoFiles.length : JsNum))
          (videoFilters (if cfg.aspectRatio = "9:16" then 1080 else 1920)
            (if cfg.aspectRatio = "9:16" then 1920 else 1080)) "medium"
          videoFiles 0).2 ++ tail ∧
      (∀ ev ∈ tail, isRenderExec ev = false) := by
  unfold compileVideo
  rw [if_neg h2, hstat, hprobe]
  dsimp only
  rcases hrend : renderSegments env cfg (d / (videoFiles.length : JsNum))
      (videoFilters (if cfg.aspectRatio = "9:16" then 1080 else 1920)
        (if cfg.aspectRatio = "9:16" then 1920 else 1080)) "medium"
      videoFiles 0 with ⟨res, evs⟩
  cases res with
  | error e =>
    refine ⟨[], ?_, by simp⟩
    simp
  | ok segs =>
    dsimp only
    rcases haeff : addEffectBetweenClips env (segs.map fun p => ⟨p, none⟩)
        ⟨transitionEffects.get cfg.randIdx, 0.5⟩
        (tempFilePath cfg "transitioned_video.mp4") with ⟨res2, evs2⟩
    have haeffEv : ∀ ev ∈ evs2, isRenderExec ev = false := by
      intro ev hev
      refine addEffectBetweenClips_no_render env
        (segs.map fun p => ⟨p, none⟩)
        ⟨transitionEffects.get cfg.randIdx, 0.5⟩
        (tempFilePath cfg "transitioned_video.mp4") ev ?_
      rw [haeff]
      exact hev
    cases res2 with
    | error e =>
      refine ⟨evs2, ?_, haeffEv⟩
      simp
    | ok t =>
      dsimp only
      rcases hmux : env.exec (Cmd.finalMux
          (tempFilePath cfg "transitioned_video.mp4") audioFile "medium"
          (if cfg.aspectRatio = "9:16" then "2500k" else "4000k")
          (tempFilePath cfg "final_video.mp4")) with e | u
      · refine ⟨evs2 ++ [Ev.exec (Cmd.finalMux
          (tempFilePath cfg "transitioned_video.mp4") audioFile "medium"
          (if cfg.aspectRatio = "9:16" then "2500k" else "4000k")
          (tempFilePath cfg "final_video.mp4")) false], ?_, ?_⟩
        · simp
        · intro ev hev
          rcases List.mem_append.mp hev with hev | hev
          · exact haeffEv ev hev
          · simp only [List.mem_singleton] at hev
            subst hev
            rfl
      · rcases hst2 : env.statSize (tempFilePath cfg "final_video.mp4") with
          e | sz2
        · refine ⟨evs2 ++ [Ev.exec (Cmd.finalMux
            (tempFilePath cfg "transitioned_video.mp4") audioFile "medium"
            (if cfg.aspectRatio = "9:16" then "2500k" else "4000k")
            (tempFilePath cfg "final_video.mp4")) true,
            Ev.statFile (tempFilePath cfg "final_video.mp4")], ?_, ?_⟩
          · simp
          · intro ev hev
            rcases List.mem_append.mp hev with hev | hev
            · exact haeffEv ev hev
            · rcases List.mem_cons.mp hev with rfl | hev
              · rfl
              · simp only [List.mem_singleton] at hev
                subst hev
                rfl
        · refine ⟨evs2 ++ [Ev.exec (Cmd.finalMux
            (tempFilePath cfg "transitioned_video.mp4") audioFile "medium"
            (if cfg.aspectRatio = "9:16" then "2500k" else "4000k")
            (tempFilePath cfg "final_video.mp4")) true,
            Ev.statFile (tempFilePath cfg "final_video.mp4")] ++
            segs.map Ev.unlink ++
            [Ev.unlink (tempFilePath cfg "transitioned_video.mp4")], ?_, ?_⟩
          · simp
          · intro ev hev
            rcases List.mem_append.mp hev with hev | hev
            · rcases List.mem_append.mp hev with hev | hev
              · rcases List.mem_append.mp hev with hev | hev
                · exact haeffEv ev hev
                · rcases List.mem_cons.mp hev with rfl | hev
                  · rfl
                  · simp only [List.mem_singleton] at hev
                    subst hev
                    rfl
              · obtain ⟨p, _, rfl⟩ := List.mem_map.mp hev
                rfl
            · simp only [List.mem_singleton] at hev
              subst hev
              rfl

/-- C8: with at least two clips and a successfully probed narration duration
`d`, every segment-render command issued by `compileVideo` trims its clip to
the same duration `d / clipCount` (equal division), and at least one such
command is issued. -/
theorem c8_equal_division (env : ToolEnv) (cfg : CompileCfg)
    (videoFiles : List String) (audioFile imageFile script : String)
    (d : JsNum) (sz : Nat)
    (h2 : 2 ≤ videoFiles.length)
    (hstat : env.statSize audioFile = Except.ok sz)
    (hprobe : env.probeDuration audioFile = Except.ok d) :
    (∀ inp t fil pre out ok,
      Ev.exec (Cmd.renderSegment inp t fil pre out) ok ∈
        (compileVideo env cfg videoFiles audioFile imageFile script).2 →
      t = d / (videoFiles.length : JsNum)) ∧
    (∃ inp fil pre out ok,
      Ev.exec (Cmd.renderSegment inp (d / (videoFiles.length : JsNum)) fil pre
        out) ok ∈
        (compileVideo env cfg videoFiles audioFile imageFile script).2) := by
  obtain ⟨tail, htr, htail⟩ := compileVideo_trace_split env cfg videoFiles
    audioFile imageFile script d sz (by omega) hstat hprobe
  constructor
  · intro inp t fil pre out ok hev
    rw [htr] at hev
    simp only [List.mem_append] at hev
    rcases hev with (hev | hev) | hev
    · simp at hev
    · obtain ⟨inp', out', ok', heq⟩ := renderSegments_events env cfg _ _ _
        videoFiles 0 _ hev
      simp only [Ev.exec.injEq, Cmd.renderSegment.injEq] at heq
      exact heq.1.2.1
    · have hfalse := htail _ hev
      simp [isRenderExec] at hfalse
  · obtain ⟨vf, rest, rfl⟩ : ∃ vf rest, videoFiles = vf :: rest := by
      cases videoFiles with
      | nil => simp at h2
      | cons a l => exact ⟨a, l, rfl⟩
    obtain ⟨ok, evs', hh⟩ := renderSegments_cons_events env cfg
      (d / (((vf :: rest).length : Nat) : JsNum))
      (videoFilters (if cfg.aspectRatio = "9:16" then 1080 else 1920)
        (if cfg.aspectRatio = "9:16" then 1920 else 1080)) "medium" vf rest 0
    refine ⟨vf,
      videoFilters (if cfg.aspectRatio = "9:16" then 1080 else 1920)
        (if cfg.aspectRatio = "9:16" then 1920 else 1080),
      "medium", segmentPath cfg 0, ok, ?_⟩
    rw [htr, hh]
    simp

/-- A tool environment in which every command, probe (30 s), and stat
(500 bytes) succeeds. -/
def allOkToolEnv : ToolEnv :=
  { exec := fun _ => Except.ok ()
    probeDuration := fun _ => Except.ok 30
    statSize := fun _ => Except.ok 500 }

/-- A concrete compilation configuration (landscape, fade-in transition). -/
def sampleCfg : CompileCfg :=
  { tmpDir := "tmp"
    aspectRatio := "16:9"
    now := 1700000000000
    randIdx := ⟨0, by decide⟩ }

/-- Witness for C8: 3 clips and a 30 s narration give 10 s segments — a
render command with `-t 30/3` is issued. -/
theorem c8_equal_division_witness :
    ∃ inp fil pre out ok,
      Ev.exec (Cmd.renderSegment inp
        ((30 : JsNum) / ((["v0.mp4", "v1.mp4", "v2.mp4"].length : Nat) : JsNum))
        fil pre out) ok ∈
        (compileVideo allOkToolEnv sampleCfg ["v0.mp4", "v1.mp4", "v2.mp4"]
          "audio.mp3" "img.png" "script").2 :=
  (c8_equal_division allOkToolEnv sampleCfg ["v0.mp4", "v1.mp4", "v2.mp4"]
    "audio.mp3" "img.png" "script" 30 500 (by decide) rfl rfl).2

/-! ## C6 — selection returns deduplicated, duration-bounded candidates -/

/-- Batch members come from the batched list. -/
theorem toBatchesGo_subset (size : Nat) :
    ∀ fuel l, ∀ b ∈ toBatchesGo size fuel l, ∀ x ∈ b, x ∈ l := by
  intro fuel
  induction fuel with
  | zero =>
    intro l b hb
    cases l <;> simp [toBatchesGo] at hb
  | succ n ih =>
    intro l b hb y hy
    cases l with
    | nil => simp [toBatchesGo] at hb
    | cons x xs =>
      rw [toBatchesGo] at hb
      rcases List.mem_cons.mp hb with rfl | hb
      · rcases List.mem_cons.mp hy with rfl | hy
        · exact List.mem_cons_self _ _
        · exact List.mem_cons_of_mem _ (List.mem_of_mem_take hy)
      · exact List.mem_cons_of_mem _ (List.mem_of_mem_drop (ih _ b hb y hy))

/-- Batch members come from the batched list. -/
theorem toBatches_subset (size : Nat) :
    ∀ l, ∀ b ∈ toBatches size l, ∀ x ∈ b, x ∈ l := by
  intro l
  exact toBatchesGo_subset size l.length l

/-- Every selected video came out of the batched retry download of some
candidate that survived the quality selection. -/
theorem mem_searchAndDownloadVideos (env : DLEnv) (s : List PexelsVideo)
    (m : Nat) (dv : DownloadedVideo)
    (h : dv ∈ searchAndDownloadVideos env s m) :
    ∃ pv, pv ∈ selectQualityVideos s m ∧
      (downloadVideoWithRetry env pv).1 = some dv := by
  unfold searchAndDownloadVideos at h
  rw [List.mem_flatten] at h
  obtain ⟨batchRes, hbr, hdv⟩ := h
  rw [List.mem_map] at hbr
  obtain ⟨batch, hbatch, rfl⟩ := hbr
  rw [List.mem_filterMap] at hdv
  obtain ⟨pv, hpv, hsome⟩ := hdv
  exact ⟨pv, toBatches_subset _ _ batch hbatch pv hpv, hsome⟩

/-- A successful `downloadVideoBody` returns exactly the record built from
the candidate's metadata. -/
theorem downloadVideoBody_ok (env : DLEnv) (v : PexelsVideo) (url : String)
    (d : DownloadedVideo) (h : downloadVideoBody env v url = Except.ok d) :
    d = downloadedOf v (pexelsLocalPath env.tmpDir v.id env.now) := by
  unfold downloadVideoBody at h
  simp only [bind, Except.bind] at h
  rcases hdl : env.download url (pexelsLocalPath env.tmpDir v.id env.now)
    with e | u
  · rw [hdl] at h
    simp at h
  · rw [hdl] at h
    dsimp only at h
    rcases hst : env.statSize (pexelsLocalPath env.tmpDir v.id env.now) with
      e | size
    · rw [hst] at h
      simp at h
    · rw [hst] at h
      dsimp only at h
      by_cases hsz : size = 0
      · rw [if_pos hsz] at h
        simp at h
      · rw [if_neg hsz] at h
        simp at h
        exact h.symm

/-- A `downloadVideo` that resolves with a record resolves with the record
built from the candidate's metadata. -/
theorem downloadVideo_ok_some (env : DLEnv) (v : PexelsVideo)
    (d : DownloadedVideo) (h : downloadVideo env v = Except.ok (some d)) :
    d = downloadedOf v (pexelsLocalPath env.tmpDir v.id env.now) := by
  unfold downloadVideo at h
  rcases hurl : getBestQualityVideoUrl v with _ | url
  · rw [hurl] at h
    simp at h
  · rw [hurl] at h
    dsimp only at h
    rcases hbody : downloadVideoBody env v url with e | d'
    · rw [hbody] at h
      simp at h
    · rw [hbody] at h
      simp at h
      subst h
      exact downloadVideoBody_ok env v url d' hbody

/-- A non-null retry-wrapper result is a successful `downloadVideo`
result. -/
theorem retryGo_some (env : DLEnv) (v : PexelsVideo) :
    ∀ fuel attempt d, (retryGo env v attempt fuel).1 = some d →
      downloadVideo env v = Except.ok (some d) := by
  intro fuel
  induction fuel with
  | zero =>
    intro attempt d h
    simp [retryGo] at h
  | succ n ih =>
    intro attempt d h
    rw [retryGo] at h
    rcases hdv : downloadVideo env v with e | r
    · rw [hdv] at h
      dsimp only at h
      by_cases hm : attempt = retryAttempts
      · rw [if_pos hm] at h
        simp at h
      · rw [if_neg hm] at h
        have hres := ih (attempt + 1) d h
        rw [hdv] at hres
        exact hres
    · rw [hdv] at h
      dsimp only at h
      rw [h]

/-- Candidates surviving the quality selection have durations in [3, 60]. -/
theorem selectQualityVideos_duration (s : List PexelsVideo) (m : Nat)
    (pv : PexelsVideo) (h : pv ∈ selectQualityVideos s m) :
    3 ≤ pv.duration ∧ pv.duration ≤ 60 := by
  unfold selectQualityVideos at h
  have h1 := List.mem_of_mem_take h
  rw [List.mem_insertionSort] at h1
  have h2 := List.mem_filter.mp h1
  simpa using h2.2

/-- Every video returned by `searchAndDownloadVideos` has duration in
[3, 60]. -/
theorem searchAndDownloadVideos_duration (env : DLEnv)
    (s : List PexelsVideo) (m : Nat) (dv : DownloadedVideo)
    (h : dv ∈ searchAndDownloadVideos env s m) :
    3 ≤ dv.duration ∧ dv.duration ≤ 60 := by
  obtain ⟨pv, hmem, hdl⟩ := mem_searchAndDownloadVideos env s m dv h
  have hb := selectQualityVideos_duration s m pv hmem
  have hok := retryGo_some env pv retryAttempts 1 dv hdl
  have hd := downloadVideo_ok_some env pv dv hok
  subst hd
  exact hb

/-- The dedup step returns a list with pairwise distinct ids: an element is
kept only when its index equals the `findIdx` of its id, and `findIdx` is a
function of the id alone. -/
theorem dedupById_pairwise (l : List DownloadedVideo) :
    (dedupById l).Pairwise (fun a b => a.id ≠ b.id) := by
  unfold dedupById
  rw [List.pairwise_map]
  rw [List.pairwise_filter]
  have henum : l.enum.Pairwise (fun x y => x.1 < y.1) := by
    rw [← List.pairwise_map (f := Prod.fst)]
    rw [List.enum_map_fst]
    exact List.pairwise_lt_range l.length
  refine henum.imp_of_mem ?_
  intro x y _ _ hlt hx hy hid
  rw [hid] at hx
  rw [hx] at hy
  omega

/-- The dedup step returns a sublist of its input. -/
theorem dedupById_sublist (l : List DownloadedVideo) :
    List.Sublist (dedupById l) l := by
  unfold dedupById
  have h1 := (List.filter_sublist (l := l.enum)
    (p := fun iv => decide (l.findIdx (fun w => w.id = iv.2.id) = iv.1)))
  have h2 := h1.map Prod.snd
  rw [List.enum_map_snd] at h2
  exact h2

/-- The merged selection has pairwise distinct ids. -/
theorem scrapeVideosSelect_pairwise
    (results : List (Option (List DownloadedVideo))) (tc : Nat) :
    (scrapeVideosSelect results tc).Pairwise (fun a b => a.id ≠ b.id) := by
  unfold scrapeVideosSelect
  have h1 := dedupById_pairwise ((results.filterMap id).flatten)
  have hperm := List.perm_insertionSort pipelineLe
    (dedupById ((results.filterMap id).flatten))
  have h2 := (hperm.pairwise_iff (fun hab => Ne.symm hab)).mpr h1
  exact h2.sublist (List.take_sublist tc _)

/-- C6: the list produced by the provider filter plus the pipeline's
cross-query merge and dedup contains no duplicate candidate ids, and every
member's duration lies in [3, 60] seconds. -/
theorem c6_selection_invariant (env : DLEnv) (s1 s2 : List PexelsVideo)
    (m1 m2 tc : Nat) :
    (scrapeVideosSelect [some (searchAndDownloadVideos env s1 m1),
        some (searchAndDownloadVideos env s2 m2)] tc).Pairwise
      (fun a b => a.id ≠ b.id) ∧
    ∀ dv ∈ scrapeVideosSelect [some (searchAndDownloadVideos env s1 m1),
        some (searchAndDownloadVideos env s2 m2)] tc,
      3 ≤ dv.duration ∧ dv.duration ≤ 60 := by
  refine ⟨scrapeVideosSelect_pairwise _ _, ?_⟩
  intro dv hdv
  unfold scrapeVideosSelect at hdv
  have h1 := List.mem_of_mem_take hdv
  rw [List.mem_insertionSort] at h1
  have h2 := (dedupById_sublist _).mem h1
  rw [List.mem_flatten] at h2
  obtain ⟨part, hpart, hdvp⟩ := h2
  rw [List.mem_filterMap] at hpart
  obtain ⟨opt, hopt, hsome⟩ := hpart
  simp only [List.mem_cons, List.mem_singleton] at hopt
  rcases hopt with rfl | rfl | h
  · cases hsome
    exact searchAndDownloadVideos_duration env s1 m1 dv hdvp
  · cases hsome
    exact searchAndDownloadVideos_duration env s2 m2 dv hdvp
  · cases h

/-- A download environment where every transfer and stat succeeds. -/
def okDLEnv : DLEnv :=
  { download := fun _ _ => Except.ok ()
    statSize := fun _ => Except.ok 1000
    tmpDir := "tmp"
    now := 5 }

/-- Witness for C6: a concrete selection containing the downloaded record
of a concrete candidate, whose duration is in range. -/
theorem c6_selection_invariant_witness :
    3 ≤ (downloadedOf retryProbeVideo (pexelsLocalPath "tmp" 77 5)).duration ∧
    (downloadedOf retryProbeVideo (pexelsLocalPath "tmp" 77 5)).duration ≤
      60 :=
  (c6_selection_invariant okDLEnv [retryProbeVideo] [] 6 4 10).2
    (downloadedOf retryProbeVideo (pexelsLocalPath "tmp" 77 5)) (by decide)

/-! ## C1 — temp-file cleanup -/

/-- A successful clip-processing loop returns exactly the indexed temp
paths. -/
theorem processClips_ok (env : ToolEnv) (effect : TransitionEffect)
    (outputPath : String) (total : Nat) :
    ∀ cds i ps, (processClips env effect outputPath total cds i).1 =
        Except.ok ps →
      ps = (List.range' i cds.length).map (tempClipPath outputPath) := by
  intro cds
  induction cds with
  | nil =>
    intro i ps h
    simp [processClips] at h
    simp [← h]
  | cons cd rest ih =>
    intro i ps h
    rw [processClips] at h
    dsimp only at h
    rcases hexec : env.exec (if i < total - 1 then
        Cmd.applyEffectCmd cd.1 (generateTransitionFilter effect cd.2)
          (tempClipPath outputPath i)
      else Cmd.copyClip cd.1 (tempClipPath outputPath i)) with e | u
    · rw [hexec] at h
      simp at h
    · rw [hexec] at h
      dsimp only at h
      rcases hrec : (processClips env effect outputPath total rest
          (i + 1)).1 with e | ps'
      · rw [hrec] at h
        simp [Except.map] at h
      · rw [hrec] at h
        simp [Except.map] at h
        rw [← h, ih (i + 1) ps' hrec]
        have hr : List.range' i (rest.length + 1) =
            i :: List.range' (i + 1) rest.length := List.range'_succ _ _ _
        simp [hr]

/-- A successful duration-resolution step yields one duration per clip. -/
theorem resolveClipDurations_ok_length (env : ToolEnv) :
    ∀ clips cds, (resolveClipDurations env clips).1 = Except.ok cds →
      cds.length = clips.length := by
  intro clips
  induction clips with
  | nil =>
    intro cds h
    simp [resolveClipDurations] at h
    simp [← h]
  | cons c cs ih =>
    intro cds h
    rw [resolveClipDurations] at h
    rcases hc : c.duration with _ | d
    · rw [hc] at h
      dsimp only at h
      rcases hp : env.probeDuration c.path with e | d'
      · rw [hp] at h
        simp at h
      · rw [hp] at h
        dsimp only at h
        rcases hrec : (resolveClipDurations env cs).1 with e | cds'
        · rw [hrec] at h
          simp [Except.map] at h
        · rw [hrec] at h
          simp [Except.map] at h
          simp [← h, ih cds' hrec]
    · rw [hc] at h
      dsimp only at h
      by_cases hd : d.num = 0
      · rw [if_pos hd] at h
        rcases hp : env.probeDuration c.path with e | d'
        · rw [hp] at h
          simp at h
        · rw [hp] at h
          dsimp only at h
          rcases hrec : (resolveClipDurations env cs).1 with e | cds'
          · rw [hrec] at h
            simp [Except.map] at h
          · rw [hrec] at h
            simp [Except.map] at h
            simp [← h, ih cds' hrec]
      · rw [if_neg hd] at h
        dsimp only at h
        rcases hrec : (resolveClipDurations env cs).1 with e | cds'
        · rw [hrec] at h
          simp [Except.map] at h
        · rw [hrec] at h
          simp [Except.map] at h
          simp [← h, ih cds' hrec]

/-- A successful segment-render loop returns exactly the indexed segment
paths. -/
theorem renderSegments_ok (env : ToolEnv) (cfg : CompileCfg)
    (segmentDuration : JsNum) (filters preset : String) :
    ∀ l i segs,
      (renderSegments env cfg segmentDuration filters preset l i).1 =
        Except.ok segs →
      segs = (List.range' i l.length).map (segmentPath cfg) := by
  intro l
  induction l with
  | nil =>
    intro i segs h
    simp [renderSegments] at h
    subst h
    simp
  | cons vf rest ih =>
    intro i segs h
    rw [renderSegments] at h
    dsimp only at h
    rcases hexec : env.exec (Cmd.renderSegment vf segmentDuration filters
        preset (segmentPath cfg i)) with e | u
    · rw [hexec] at h
      simp at h
    · rw [hexec] at h
      dsimp only at h
      rcases hrec : (renderSegments env cfg segmentDuration filters preset
          rest (i + 1)).1 with e | segs'
      · rw [hrec] at h
        simp [Except.map] at h
      · rw [hrec] at h
        simp [Except.map] at h
        rw [← h, ih (i + 1) segs' hrec]
        have hr : List.range' i (rest.length + 1) =
            i :: List.range' (i + 1) rest.length := List.range'_succ _ _ _
        simp [hr]

/-- After a successful `addEffectBetweenClips` run, every per-clip temp
intermediate and the concat list file have been unlinked. -/
theorem addEffect_success_cleanup (env : ToolEnv) (clips : List VideoClip)
    (effect : TransitionEffect) (outputPath : String) (res : String)
    (h : (addEffectBetweenClips env clips effect outputPath).1 =
      Except.ok res) :
    (∀ i, i < clips.length →
      Ev.unlink (tempClipPath outputPath i) ∈
        (addEffectBetweenClips env clips effect outputPath).2) ∧
    Ev.unlink (concatListPath outputPath) ∈
      (addEffectBetweenClips env clips effect outputPath).2 := by
  unfold addEffectBetweenClips at h ⊢
  by_cases hlen : clips.length < 2
  · rw [if_pos hlen] at h
    simp at h
  · rw [if_neg hlen] at h ⊢
    rcases hres : resolveClipDurations env clips with ⟨res1, evs1⟩
    rw [hres] at h
    cases res1 with
    | error e => simp at h
    | ok cds =>
      dsimp only at h ⊢
      rcases hproc : processClips env effect outputPath cds.length cds 0 with
        ⟨res2, evs2⟩
      rw [hproc] at h
      cases res2 with
      | error e => simp at h
      | ok processed =>
        dsimp only at h ⊢
        rcases hcc : env.exec (Cmd.concatClips (concatListPath outputPath)
            outputPath) with e | u
        · rw [hcc] at h
          simp at h
        · rw [hcc] at h
          dsimp only at h ⊢
          have hps : processed =
              (List.range' 0 cds.length).map (tempClipPath outputPath) :=
            processClips_ok env effect outputPath cds.length cds 0 processed
              (by rw [hproc])
          have hlen2 : cds.length = clips.length :=
            resolveClipDurations_ok_length env clips cds (by rw [hres])
          constructor
          · intro i hi
            have hmem : Ev.unlink (tempClipPath outputPath i) ∈
                processed.map Ev.unlink := by
              refine List.mem_map.mpr ⟨tempClipPath outputPath i, ?_, rfl⟩
              rw [hps]
              refine List.mem_map.mpr ⟨i, ?_, rfl⟩
              rw [List.mem_range'_1]
              omega
            simp only [List.mem_append]
            exact Or.inl (Or.inr hmem)
          · simp only [List.mem_append]
            exact Or.inr (by simp)

/-- After a successful `compileVideo` run, every rendered segment and the
transitioned intermediate have been unlinked. -/
theorem compileVideo_success_cleanup (env : ToolEnv) (cfg : CompileCfg)
    (videoFiles : List String) (audioFile imageFile script : String)
    (res : String)
    (h : (compileVideo env cfg videoFiles audioFile imageFile script).1 =
      Except.ok res) :
    (∀ i, i < videoFiles.length →
      Ev.unlink (segmentPath cfg i) ∈
        (compileVideo env cfg videoFiles audioFile imageFile script).2) ∧
    Ev.unlink (tempFilePath cfg "transitioned_video.mp4") ∈
      (compileVideo env cfg videoFiles audioFile imageFile script).2 := by
  unfold compileVideo at h ⊢
  by_cases hlen : videoFiles.length < 2
  · rw [if_pos hlen] at h
    simp at h
  · rw [if_neg hlen] at h ⊢
    rcases hstat : env.statSize audioFile with e | sz
    · simp [hstat] at h
    · try rw [hstat] at h
      try dsimp only at h ⊢
      rcases hprobe : env.probeDuration audioFile with e | dur
      · simp [hprobe] at h
      · try rw [hprobe] at h
        try dsimp only at h ⊢
        rcases hrend : renderSegments env cfg
            (dur / (videoFiles.length : JsNum))
            (videoFilters (if cfg.aspectRatio = "9:16" then 1080 else 1920)
              (if cfg.aspectRatio = "9:16" then 1920 else 1080)) "medium"
            videoFiles 0 with ⟨res1, evs⟩
        try rw [hrend] at h
        cases res1 with
        | error e => simp at h
        | ok segs =>
          try dsimp only at h ⊢
          rcases haeff : addEffectBetweenClips env
              (segs.map fun p => ⟨p, none⟩)
              ⟨transitionEffects.get cfg.randIdx, 0.5⟩
              (tempFilePath cfg "transitioned_video.mp4") with ⟨res2, evs2⟩
          try rw [haeff] at h
          cases res2 with
          | error e => simp at h
          | ok t =>
            try dsimp only at h ⊢
            rcases hmux : env.exec (Cmd.finalMux
                (tempFilePath cfg "transitioned_video.mp4") audioFile
                "medium"
                (if cfg.aspectRatio = "9:16" then "2500k" else "4000k")
                (tempFilePath cfg "final_video.mp4")) with e | u
            · simp [hmux] at h
            · try rw [hmux] at h
              try dsimp only at h ⊢
              rcases hst2 : env.statSize (tempFilePath cfg "final_video.mp4")
                with e | sz2
              · simp [hst2] at h
              · try rw [hst2] at h
                try dsimp only at h ⊢
                have hsegs : segs =
                    (List.range' 0 videoFiles.length).map (segmentPath cfg) :=
                  renderSegments_ok env cfg _ _ _ videoFiles 0 segs
                    (by rw [hrend])
                constructor
                · intro i hi
                  have hmem : Ev.unlink (segmentPath cfg i) ∈
                      segs.map Ev.unlink := by
                    refine List.mem_map.mpr ⟨segmentPath cfg i, ?_, rfl⟩
                    rw [hsegs]
                    refine List.mem_map.mpr ⟨i, ?_, rfl⟩
                    rw [List.mem_range'_1]
                    omega
                  simp only [List.mem_append]
                  exact Or.inl (Or.inr hmem)
                · simp only [List.mem_append]
                  exact Or.inr (by simp)

/-- C1 (amended): temp-file cleanup happens on the success path only —
after a successful run, `addEffectBetweenClips` deletes every per-clip
intermediate file and the generated concat list file, and `compileVideo`
deletes every rendered segment file and the transitioned intermediate;
after a failed run no such deletion is performed. -/
theorem c1_cleanup_on_success :
    (∀ (env : ToolEnv) (clips : List VideoClip) (effect : TransitionEffect)
        (outputPath res : String),
      (addEffectBetweenClips env clips effect outputPath).1 =
        Except.ok res →
      (∀ i, i < clips.length →
        Ev.unlink (tempClipPath outputPath i) ∈
          (addEffectBetweenClips env clips effect outputPath).2) ∧
      Ev.unlink (concatListPath outputPath) ∈
        (addEffectBetweenClips env clips effect outputPath).2) ∧
    (∀ (env : ToolEnv) (cfg : CompileCfg) (videoFiles : List String)
        (audioFile imageFile script res : String),
      (compileVideo env cfg videoFiles audioFile imageFile script).1 =
        Except.ok res →
      (∀ i, i < videoFiles.length →
        Ev.unlink (segmentPath cfg i) ∈
          (compileVideo env cfg videoFiles audioFile imageFile script).2) ∧
      Ev.unlink (tempFilePath cfg "transitioned_video.mp4") ∈
        (compileVideo env cfg videoFiles audioFile imageFile script).2) :=
  ⟨fun env clips effect outputPath res h =>
      addEffect_success_cleanup env clips effect outputPath res h,
    fun env cfg videoFiles audioFile imageFile script res h =>
      compileVideo_success_cleanup env cfg videoFiles audioFile imageFile
        script res h⟩

/-- Witness for C1 on concrete successful runs of both stages. -/
theorem c1_cleanup_on_success_witness :
    Ev.unlink (segmentPath sampleCfg 0) ∈
      (compileVideo allOkToolEnv sampleCfg ["v0.mp4", "v1.mp4"] "audio.mp3"
        "img.png" "script").2 ∧
    Ev.unlink (tempFilePath sampleCfg "transitioned_video.mp4") ∈
      (compileVideo allOkToolEnv sampleCfg ["v0.mp4", "v1.mp4"] "audio.mp3"
        "img.png" "script").2 ∧
    Ev.unlink (tempClipPath "out/final.mp4" 0) ∈
      (addEffectBetweenClips allOkToolEnv
        [⟨"a.mp4", some 5⟩, ⟨"b.mp4", some 6⟩] ⟨EffectName.fadein, 1⟩
        "out/final.mp4").2 ∧
    Ev.unlink (concatListPath "out/final.mp4") ∈
      (addEffectBetweenClips allOkToolEnv
        [⟨"a.mp4", some 5⟩, ⟨"b.mp4", some 6⟩] ⟨EffectName.fadein, 1⟩
        "out/final.mp4").2 := by
  have hc := c1_cleanup_on_success.2 allOkToolEnv sampleCfg
    ["v0.mp4", "v1.mp4"] "audio.mp3" "img.png" "script"
    (tempFilePath sampleCfg "final_video.mp4") (by decide)
  have ha := c1_cleanup_on_success.1 allOkToolEnv
    [⟨"a.mp4", some 5⟩, ⟨"b.mp4", some 6⟩] ⟨EffectName.fadein, 1⟩
    "out/final.mp4" "out/final.mp4" (by decide)
  exact ⟨hc.1 0 (by decide), hc.2, ha.1 0 (by decide), ha.2⟩

/-- An environment in which the list-based concatenation fails and every
other command, probe, and stat succeeds. -/
def concatFailEnv : ToolEnv :=
  { exec := fun c =>
      match c with
      | Cmd.concatClips _ _ => Except.error "concat failed"
      | _ => Except.ok ()
    probeDuration := fun _ => Except.ok 30
    statSize := fun _ => Except.ok 500 }

/-- C1 counterexample: a two-clip compilation whose concatenation step
fails has created both per-clip intermediates (successful apply-effect and
copy commands), written the concat list, and rendered both segments, yet
its failed run performs no unlink of any of those files, nor of the
transitioned intermediate — contradicting cleanup on the failure path. -/
theorem c1_counterexample :
    (compileVideo concatFailEnv sampleCfg ["a.mp4", "b.mp4"] "audio.mp3"
        "img.png" "script").1 =
      Except.error "Enhanced video compilation failed: concat failed" ∧
    Ev.exec (Cmd.renderSegment "a.mp4"
        ((30 : JsNum) / ((["a.mp4", "b.mp4"].length : Nat) : JsNum))
        (videoFilters 1920 1080) "medium"
        (segmentPath sampleCfg 0)) true ∈
      (compileVideo concatFailEnv sampleCfg ["a.mp4", "b.mp4"] "audio.mp3"
        "img.png" "script").2 ∧
    Ev.exec (Cmd.applyEffectCmd (segmentPath sampleCfg 0)
        (TransFilter.fadeIn 30)
        (tempClipPath (tempFilePath sampleCfg "transitioned_video.mp4") 0))
        true ∈
      (compileVideo concatFailEnv sampleCfg ["a.mp4", "b.mp4"] "audio.mp3"
        "img.png" "script").2 ∧
    Ev.exec (Cmd.copyClip (segmentPath sampleCfg 1)
        (tempClipPath (tempFilePath sampleCfg "transitioned_video.mp4") 1))
        true ∈
      (compileVideo concatFailEnv sampleCfg ["a.mp4", "b.mp4"] "audio.mp3"
        "img.png" "script").2 ∧
    Ev.unlink (tempClipPath (tempFilePath sampleCfg
        "transitioned_video.mp4") 0) ∉
      (compileVideo concatFailEnv sampleCfg ["a.mp4", "b.mp4"] "audio.mp3"
        "img.png" "script").2 ∧
    Ev.unlink (tempClipPath (tempFilePath sampleCfg
        "transitioned_video.mp4") 1) ∉
      (compileVideo concatFailEnv sampleCfg ["a.mp4", "b.mp4"] "audio.mp3"
        "img.png" "script").2 ∧
    Ev.unlink (concatListPath (tempFilePath sampleCfg
        "transitioned_video.mp4")) ∉
      (compileVideo concatFailEnv sampleCfg ["a.mp4", "b.mp4"] "audio.mp3"
        "img.png" "script").2 ∧
    Ev.unlink (segmentPath sampleCfg 0) ∉
      (compileVideo concatFailEnv sampleCfg ["a.mp4", "b.mp4"] "audio.mp3"
        "img.png" "script").2 ∧
    Ev.unlink (segmentPath sampleCfg 1) ∉
      (compileVideo concatFailEnv sampleCfg ["a.mp4", "b.mp4"] "audio.mp3"
        "img.png" "script").2 ∧
    Ev.unlink (tempFilePath sampleCfg "transitioned_video.mp4") ∉
      (compileVideo concatFailEnv sampleCfg ["a.mp4", "b.mp4"] "audio.mp3"
        "img.png" "script").2 := by
  refine ⟨by decide, by decide, by decide, by decide, by decide, by decide,
    by decide, by decide, by decide, by decide⟩

end VideoAI
